import Mathlib

/-!
Verification development for the tinyproto full-duplex (FD) protocol layer.
The repository itself ships only the public headers (`src/proto/fd/tiny_fd.h`,
`src/link/TinySerialFdLink.h`); the executable bodies of the declared
functions are not part of the sources.  The definitions below therefore model
the declared operations from the specification and from the contracts stated
in the header documentation, and the theorems settle the specified properties
against those models.
-/

namespace TinyFd

/-- Modelled from the spec: the semantic error codes of the library
(`TINY_SUCCESS`, `TINY_ERR_FAILED`, `TINY_ERR_INVALID_DATA`,
`TINY_ERR_TIMEOUT`, `TINY_ERR_DATA_TOO_LARGE`), declared in
`hal/tiny_types.h`, which is not among the sources. -/
inductive TinyResult where
  | success
  | errFailed
  | errInvalidData
  | errTimeout
  | errDataTooLarge
  deriving DecidableEq, Repr

/-- Modelled from the spec: the `hdlc_crc_t` selector declared in
`proto/crc/crc.h` (not among the sources): no CRC, CRC-8, CRC-16-CCITT,
CRC-32, with `HDLC_CRC_DEFAULT` resolving to CRC-16 when available. -/
inductive HdlcCrc where
  | default
  | off
  | crc8
  | crc16
  | crc32
  deriving DecidableEq, Repr

/-- Modelled from the spec: `HDLC_CRC_DEFAULT` resolves to CRC-16. -/
def hdlc_crc_resolve (c : HdlcCrc) : HdlcCrc :=
  match c with
  | HdlcCrc.default => HdlcCrc.crc16
  | c => c

/-- Modelled from the spec: number of CRC octets appended to a frame for each
CRC mode (0 / 1 / 2 / 4 bytes). -/
def hdlc_crc_len (c : HdlcCrc) : Nat :=
  match c with
  | HdlcCrc.default => 2
  | HdlcCrc.off => 0
  | HdlcCrc.crc8 => 1
  | HdlcCrc.crc16 => 2
  | HdlcCrc.crc32 => 4

/-- Frame header length: address octet plus control octet (spec section 3). -/
def fd_header_len : Nat := 2

/-- Modelled from the spec: per-slot bookkeeping overhead of the send queue
(`seq`, state, `first_sent_at`, `retries_left`); the exact constant is
implementation-defined, a representative value is used. -/
def fd_slot_overhead : Nat := 8

/-- Modelled from the spec: fixed overhead of a protocol handle inside the
user-supplied buffer; the exact constant is implementation-defined, a
representative value is used. -/
def fd_fixed_overhead : Nat := 16

/-- Modelled from the spec: `buffer_size_by_mtu(mtu, window, crc) =
window * (mtu + header + crc + slot_overhead) + reassembly(mtu + header + crc)
+ fixed_overhead`, a pure function of its arguments; the reassembly buffer is
sized for worst-case byte-stuffing (factor 2).  Models
`tiny_fd_buffer_size_by_mtu_ex` whose body is not among the sources. -/
def tiny_fd_buffer_size_by_mtu_ex (mtu window : Nat) (crc_type : HdlcCrc) : Nat :=
  window * (mtu + fd_header_len + hdlc_crc_len (hdlc_crc_resolve crc_type) + fd_slot_overhead)
    + 2 * (mtu + fd_header_len + hdlc_crc_len (hdlc_crc_resolve crc_type))
    + fd_fixed_overhead

/-- Modelled from the spec: `tiny_fd_buffer_size_by_mtu` (body not among the
sources); per the header documentation it "calculates buffer requirements
based on HDLC_CRC_16". -/
def tiny_fd_buffer_size_by_mtu (mtu window : Nat) : Nat :=
  tiny_fd_buffer_size_by_mtu_ex mtu window HdlcCrc.crc16

/-- Modelled from the spec: the `tiny_fd_init_t` configuration record
(`tiny_fd.h`, lines 56-111), restricted to the fields the state machine
depends on.  Byte buffers are represented by their sizes. -/
structure FdInitCfg where
  buffer_size : Nat
  send_timeout : Nat
  retry_timeout : Nat
  retries : Nat
  crc_type : HdlcCrc
  window_frames : Nat
  mtu : Nat
  deriving DecidableEq, Repr

/-- Modelled from the spec: effective retry timeout chosen at init; the
default `send_timeout / (retries + 1)` is used when the caller passes 0. -/
def fd_effective_retry_timeout (cfg : FdInitCfg) : Nat :=
  if cfg.retry_timeout = 0 then cfg.send_timeout / (cfg.retries + 1)
  else cfg.retry_timeout

/-- Modelled from the spec: the MTU the protocol computes from `buffer_size`
and `window_frames` when the caller passes `mtu = 0`; the inverse of the
buffer-size formula. -/
def fd_computed_mtu (buffer_size window : Nat) (crc_type : HdlcCrc) : Nat :=
  (buffer_size - fd_fixed_overhead
      - window * (fd_header_len + hdlc_crc_len (hdlc_crc_resolve crc_type) + fd_slot_overhead)
      - 2 * (fd_header_len + hdlc_crc_len (hdlc_crc_resolve crc_type)))
    / (window + 2)

/-- Total per-configuration overhead of the buffer-size formula: everything
except the per-MTU-byte share; used to relate `tiny_fd_buffer_size_by_mtu_ex`
and `fd_computed_mtu`. -/
def fd_overhead_total (window : Nat) (crc_type : HdlcCrc) : Nat :=
  fd_fixed_overhead
    + window * (fd_header_len + hdlc_crc_len (hdlc_crc_resolve crc_type) + fd_slot_overhead)
    + 2 * (fd_header_len + hdlc_crc_len (hdlc_crc_resolve crc_type))

/-- Modelled from the spec: the MTU actually installed in the handle: the
caller's value when nonzero, otherwise the automatically computed one. -/
def fd_effective_mtu (cfg : FdInitCfg) : Nat :=
  if cfg.mtu = 0 then fd_computed_mtu cfg.buffer_size cfg.window_frames cfg.crc_type
  else cfg.mtu

/-- Modelled from the spec: the part of the protocol handle
(`tiny_fd_data_t`, opaque in the header) that the verified properties
depend on. -/
structure FdHandle where
  mtu : Nat
  retry_timeout : Nat
  window_frames : Nat
  deriving DecidableEq, Repr

/-- Modelled from the spec: `tiny_fd_init` (body not among the sources).
Init fails (`TINY_ERR_FAILED`) on inconsistent parameters: window outside
[1,7], or a buffer too small to hold even a 1-byte-MTU configuration. -/
def tiny_fd_init (cfg : FdInitCfg) : Option FdHandle :=
  if cfg.window_frames < 1 ∨ 7 < cfg.window_frames then none
  else if fd_effective_mtu cfg = 0 then none
  else if cfg.buffer_size < tiny_fd_buffer_size_by_mtu_ex (fd_effective_mtu cfg)
      cfg.window_frames cfg.crc_type then none
  else some
    { mtu := fd_effective_mtu cfg
      retry_timeout := fd_effective_retry_timeout cfg
      window_frames := cfg.window_frames }

/-- Modelled from the spec: `tiny_fd_get_mtu` returns the max packet size of
the handle. -/
def tiny_fd_get_mtu (h : FdHandle) : Nat := h.mtu

/-- Modelled from the spec: the environment a blocking `tiny_fd_send_packet`
call observes: whether the handle is being closed (cancellation) and whether
a free queue slot becomes available within `send_timeout`. -/
structure SendEnv where
  closing : Bool
  slot_free_in_time : Bool
  deriving DecidableEq, Repr

/-- Modelled from the spec: `tiny_fd_send_packet` (body not among the
sources).  Per the header contract: `TINY_ERR_DATA_TOO_LARGE` when the
payload exceeds the MTU, `TINY_ERR_FAILED` when the request is cancelled by
close, `TINY_ERR_TIMEOUT` when no queue slot frees up within `send_timeout`,
`TINY_SUCCESS` when the payload has been copied into the internal queue.
Returns the result code and the queue after the call. -/
def tiny_fd_send_packet (mtu : Nat) (env : SendEnv) (queue : List (List Nat))
    (buf : List Nat) : TinyResult × List (List Nat) :=
  if mtu < buf.length then (TinyResult.errDataTooLarge, queue)
  else if env.closing then (TinyResult.errFailed, queue)
  else if env.slot_free_in_time then (TinyResult.success, queue ++ [buf])
  else (TinyResult.errTimeout, queue)

/-- Unnumbered and supervisory commands that can sit in the control tx
queue (spec section 3). -/
inductive UFrame where
  | sabm
  | ua
  | disc
  | frmr
  deriving DecidableEq, Repr

/-- Modelled from the spec: the bounded queue of pending control frames. -/
structure UFrameQueue where
  frames : List UFrame
  capacity : Nat
  deriving DecidableEq, Repr

/-- Modelled from the spec: connection-level state visible to the tx domain,
including whether the peer's UA answer to a DISC has arrived. -/
structure FdConnState where
  connected : Bool
  ua_received : Bool
  deriving DecidableEq, Repr

/-- Modelled from the spec: `tiny_fd_disconnect` (body not among the
sources).  Per the header contract it puts the DISC command into the tx
queue and exits without waiting for the UA answer: `TINY_SUCCESS` when DISC
was queued, `TINY_ERR_FAILED` when the tx queue is full.  The connection
state (in particular `ua_received`) is taken as an argument only to express
that the result does not depend on it. -/
def tiny_fd_disconnect (_conn : FdConnState) (q : UFrameQueue) :
    TinyResult × UFrameQueue :=
  if q.frames.length < q.capacity then
    (TinyResult.success, { q with frames := q.frames ++ [UFrame.disc] })
  else (TinyResult.errFailed, q)

/-- One shift step of CRC-16/CCITT-FALSE (polynomial 0x1021), MSB first
(spec section 4.A). -/
def crc16_shift (c : Nat) : Nat :=
  if 0x8000 ≤ c % 0x10000 then ((c % 0x10000) * 2 ^^^ 0x1021) % 0x10000
  else ((c % 0x10000) * 2) % 0x10000

/-- Feed one octet into the CRC-16/CCITT-FALSE accumulator. -/
def crc16_update (c b : Nat) : Nat :=
  crc16_shift^[8] ((c ^^^ (b % 256) * 256) % 0x10000)

/-- Modelled from the spec: CRC-16/CCITT-FALSE over a byte sequence, init
0xFFFF (spec section 4.A); the CRC codec body (`proto/crc/crc.c`) is not
among the sources. -/
def crc16 (data : List Nat) : Nat := data.foldl crc16_update 0xFFFF

/-- CRC-16 of a byte sequence serialized little-endian, as placed on the
wire (spec section 6). -/
def crc16_bytes (data : List Nat) : List Nat :=
  [crc16 data % 256, crc16 data / 256 % 256]

/-- HDLC byte-stuffing of a single octet: `0x7E` and `0x7D` are replaced by
`0x7D` followed by the octet XOR `0x20`, any other octet passes through
(spec section 3). -/
def hdlc_escape_byte (b : Nat) : List Nat :=
  if b = 0x7E ∨ b = 0x7D then [0x7D, b ^^^ 0x20] else [b]

/-- HDLC byte-stuffing of a byte sequence. -/
def hdlc_stuff (data : List Nat) : List Nat := data.flatMap hdlc_escape_byte

/-- Modelled from the spec: the framer's streaming encode (`hdlc.c`, not
among the sources): opening flag `0x7E`, stuffed content with the CRC-16
appended little-endian, closing flag `0x7E` (spec section 4.B). -/
def hdlc_encode (data : List Nat) : List Nat :=
  0x7E :: (hdlc_stuff (data ++ crc16_bytes data) ++ [0x7E])

/-- States of the streaming HDLC decoder: hunting for a flag, reading frame
content, or just after an escape octet (spec section 4.B). -/
inductive HdlcRxState where
  | hunt
  | reading
  | escape
  deriving DecidableEq, Repr

/-- Modelled from the spec: the framer's decode context: state, reassembly
buffer, frames emitted so far (in order), and the CRC-mismatch statistic. -/
structure HdlcDecoder where
  state : HdlcRxState
  buf : List Nat
  frames : List (List Nat)
  crc_errors : Nat
  deriving DecidableEq, Repr

/-- Modelled from the spec: handling of a closing flag while reading: an
empty interior is an idle flag (so that consecutive frames can share a
flag); an interior shorter than header plus CRC (`length < header+CRC`,
4 bytes with CRC-16) is silently dropped, returning to hunt; a CRC
mismatch is dropped and counted; a valid frame is emitted and the closing
flag doubles as the opening flag of the next frame (spec section 4.B). -/
def hdlc_close_frame (d : HdlcDecoder) : HdlcDecoder :=
  if d.buf = [] then { d with state := HdlcRxState.reading, buf := [] }
  else if d.buf.length < fd_header_len + 2 then
    { d with state := HdlcRxState.hunt, buf := [] }
  else if crc16_bytes (d.buf.take (d.buf.length - 2)) = d.buf.drop (d.buf.length - 2) then
    { d with state := HdlcRxState.reading, buf := []
             frames := d.frames ++ [d.buf.take (d.buf.length - 2)] }
  else { d with state := HdlcRxState.hunt, buf := [], crc_errors := d.crc_errors + 1 }

/-- Modelled from the spec: one octet of the framer's streaming decode
(spec section 4.B). -/
def hdlc_step (d : HdlcDecoder) (b : Nat) : HdlcDecoder :=
  match d.state with
  | HdlcRxState.hunt =>
      if b = 0x7E then { d with state := HdlcRxState.reading, buf := [] } else d
  | HdlcRxState.reading =>
      if b = 0x7E then hdlc_close_frame d
      else if b = 0x7D then { d with state := HdlcRxState.escape }
      else { d with buf := d.buf ++ [b] }
  | HdlcRxState.escape =>
      { d with state := HdlcRxState.reading, buf := d.buf ++ [b ^^^ 0x20] }

/-- Run the streaming decoder over a chunk of received bytes. -/
def hdlc_run (d : HdlcDecoder) (bs : List Nat) : HdlcDecoder := bs.foldl hdlc_step d

/-- Fresh decode context: hunting, empty buffer, nothing emitted. -/
def hdlc_decoder_init : HdlcDecoder :=
  { state := HdlcRxState.hunt, buf := [], frames := [], crc_errors := 0 }

/-- An I-frame as seen by the receive reassembly: send sequence number
N(S) and payload (spec section 3). -/
structure RxFrame where
  ns : Nat
  payload : List Nat
  deriving DecidableEq, Repr

/-- Modelled from the spec: receive-reassembly state: the next expected
N(R) and the payloads delivered to `on_frame_cb` so far, in delivery
order. -/
structure FdReceiver where
  next_nr : Nat
  delivered : List (List Nat)
  deriving DecidableEq, Repr

/-- Modelled from the spec: receive reassembly of one I-frame (spec
section 4.E): when N(S) equals `next_nr` the payload is delivered via
`on_frame_cb` and `next_nr` advances modulo 8; otherwise the frame is
dropped (REJ recovery) and nothing is delivered. -/
def fd_rx_i_frame (r : FdReceiver) (f : RxFrame) : FdReceiver :=
  if f.ns % 8 = r.next_nr then
    { next_nr := (r.next_nr + 1) % 8, delivered := r.delivered ++ [f.payload] }
  else r

/-- Parse a decoded frame interior (address octet, control octet, payload)
as an I-frame: low control bit 0, N(S) in bits 1-3 (spec section 3).
S- and U-frames carry no payload for the receive reassembly. -/
def fd_parse_i_frame (bytes : List Nat) : Option RxFrame :=
  match bytes with
  | _addr :: ctrl :: rest =>
      if ctrl % 2 = 0 then some { ns := ctrl / 2 % 8, payload := rest } else none
  | _ => none

/-- Feed one decoded frame to the receive reassembly; non-I frames leave
it unchanged (they affect only window and connection state). -/
def fd_process_frame (r : FdReceiver) (bytes : List Nat) : FdReceiver :=
  match fd_parse_i_frame bytes with
  | some f => fd_rx_i_frame r f
  | none => r

/-- Modelled from the spec: the rx-domain part of the protocol handle: the
single framer decode context (stateful across `on_rx_data` calls) and the
receive reassembly. -/
structure FdState where
  rx : HdlcDecoder
  receiver : FdReceiver
  deriving DecidableEq, Repr

/-- Modelled from the spec: `tiny_fd_on_rx_data` (body not among the
sources).  Runs the streaming decoder over the chunk, feeds every frame
completed during this call to the receive reassembly, and returns
`TINY_SUCCESS` unconditionally: framer and protocol errors influence only
the internal state and statistics (spec section 7, header line 197). -/
def tiny_fd_on_rx_data (s : FdState) (data : List Nat) : TinyResult × FdState :=
  let rx := hdlc_run s.rx data
  let fresh := rx.frames.drop s.rx.frames.length
  (TinyResult.success, { rx := rx, receiver := fresh.foldl fd_process_frame s.receiver })

/-- Modelled from the spec: the sliding-window counters of the send queue:
`next_ns` (next N(S) to assign) and `confirm_ns` (oldest unacked N(S)),
both modulo 8 (spec section 3). -/
structure WindowState where
  next_ns : Nat
  confirm_ns : Nat
  deriving DecidableEq, Repr

/-- Number of in-flight (unacknowledged) I-frames:
`(next_ns - confirm_ns) mod 8` computed on the modulo-8 counters. -/
def window_used (s : WindowState) : Nat := (s.next_ns + 8 - s.confirm_ns) % 8

/-- The operations of the send queue and window engine that the window
invariant quantifies over (spec section 4.D). -/
inductive WindowOp where
  | enqueue
  | transmit
  | ack (nr : Nat)
  | retransmit
  | reset
  deriving DecidableEq, Repr

/-- Modelled from the spec: effect of each operation on the window
counters (spec section 4.D): `enqueue` only copies a payload into a free
slot; `transmit` assigns `next_ns` to the next unsent I-frame, only within
the window; `ack nr` frees the slots in `[confirm_ns, nr)` when `nr`
acknowledges at most the outstanding frames, advancing `confirm_ns` to
`nr`; `retransmit` re-sends an in-flight frame without assigning a new
N(S); `reset` re-enters connected state with both counters zero. -/
def window_step (w : Nat) (s : WindowState) (op : WindowOp) : WindowState :=
  match op with
  | WindowOp.enqueue => s
  | WindowOp.transmit =>
      if window_used s < w then { s with next_ns := (s.next_ns + 1) % 8 } else s
  | WindowOp.ack nr =>
      if (nr % 8 + 8 - s.confirm_ns) % 8 ≤ window_used s then
        { s with confirm_ns := nr % 8 }
      else s
  | WindowOp.retransmit => s
  | WindowOp.reset => { next_ns := 0, confirm_ns := 0 }

/-- Reachable window states: the all-zero state after connecting, closed
under the five operations. -/
inductive WindowReachable (w : Nat) : WindowState → Prop where
  | init : WindowReachable w { next_ns := 0, confirm_ns := 0 }
  | step (s : WindowState) (op : WindowOp) :
      WindowReachable w s → WindowReachable w (window_step w s op)

/-- Modelled from the spec: the closed two-peer system for one direction of
the link: unwrapped transmit counter `next_ns` (frames of the peer's queue
sent at least once), unwrapped sender acknowledgement counter `confirm_ns`,
unwrapped receiver counter `next_nr` (frames delivered), and the payloads
delivered to the local `on_frame_cb` in order.  On the wire only the
modulo-8 residues of the counters travel. -/
structure LinkState where
  next_ns : Nat
  confirm_ns : Nat
  next_nr : Nat
  delivered : List (List Nat)
  deriving DecidableEq, Repr

/-- The I-frame carrying the `i`-th enqueued payload: N(S) is the counter
modulo 8 (spec section 6: sequence numbers are 3 bits). -/
def link_frame (ps : List (List Nat)) (i : Nat) : RxFrame :=
  { ns := i % 8, payload := ps.getD i [] }

/-- Delivery of the I-frame for index `i` to the local receiver, which
checks N(S) against `next_nr` modulo 8 (`fd_rx_i_frame`). -/
def link_recv (s : LinkState) (ps : List (List Nat)) (i : Nat) : LinkState :=
  { s with
    next_nr := if i % 8 = s.next_nr % 8 then s.next_nr + 1 else s.next_nr
    delivered := (fd_rx_i_frame { next_nr := s.next_nr % 8, delivered := s.delivered }
      (link_frame ps i)).delivered }

/-- Modelled from the spec: the transitions of the closed system over a
lossy channel (spec sections 4.D, 4.E): a fresh I-frame may be sent only
within the window (`next_ns < confirm_ns + w`) and may be lost or
received; an unacknowledged in-flight frame (`confirm_ns ≤ i < next_ns`)
may be retransmitted and may be lost or received; the sender may learn any
acknowledgement that the receiver can truthfully send
(`confirm_ns ≤ a ≤ next_nr`). -/
inductive LinkStep (w : Nat) (ps : List (List Nat)) : LinkState → LinkState → Prop where
  | send_lost (s : LinkState) (h1 : s.next_ns < ps.length)
      (h2 : s.next_ns < s.confirm_ns + w) :
      LinkStep w ps s { s with next_ns := s.next_ns + 1 }
  | send_recv (s : LinkState) (h1 : s.next_ns < ps.length)
      (h2 : s.next_ns < s.confirm_ns + w) :
      LinkStep w ps s { link_recv s ps s.next_ns with next_ns := s.next_ns + 1 }
  | retransmit_lost (s : LinkState) (i : Nat) (h1 : s.confirm_ns ≤ i)
      (h2 : i < s.next_ns) :
      LinkStep w ps s s
  | retransmit_recv (s : LinkState) (i : Nat) (h1 : s.confirm_ns ≤ i)
      (h2 : i < s.next_ns) :
      LinkStep w ps s (link_recv s ps i)
  | ack_recv (s : LinkState) (a : Nat) (h1 : s.confirm_ns ≤ a)
      (h2 : a ≤ s.next_nr) :
      LinkStep w ps s { s with confirm_ns := a }

/-- States of the closed system reachable from the fresh connection. -/
inductive LinkReachable (w : Nat) (ps : List (List Nat)) : LinkState → Prop where
  | init : LinkReachable w ps { next_ns := 0, confirm_ns := 0, next_nr := 0, delivered := [] }
  | step (s s' : LinkState) (hs : LinkReachable w ps s) (h : LinkStep w ps s s') :
      LinkReachable w ps s'

/-- The inductive invariant of the closed system: the counters are ordered
`confirm_ns ≤ next_nr ≤ next_ns`, the window bounds `next_ns`, no more
frames than enqueued are sent, and the delivered payloads are exactly the
first `next_nr` enqueued ones, in order. -/
def LinkInv (w : Nat) (ps : List (List Nat)) (s : LinkState) : Prop :=
  s.confirm_ns ≤ s.next_nr ∧ s.next_nr ≤ s.next_ns ∧ s.next_ns ≤ s.confirm_ns + w ∧
    s.next_ns ≤ ps.length ∧ s.delivered = ps.take s.next_nr

/-- C5: `tiny_fd_send_packet` returns `TINY_ERR_DATA_TOO_LARGE` exactly when
the payload length exceeds the MTU (and then the payload is not enqueued);
`TINY_ERR_TIMEOUT` exactly when the payload fits but no queue slot frees up
within `send_timeout` and the call is not cancelled (and then the payload is
not enqueued); `TINY_ERR_FAILED` exactly when the fitting request is
cancelled by close; and `TINY_SUCCESS` exactly when the payload has been
copied into the internal queue. -/
theorem claim_C5_send_packet_errors (mtu : Nat) (env : SendEnv)
    (queue : List (List Nat)) (buf : List Nat) :
    ((tiny_fd_send_packet mtu env queue buf).1 = TinyResult.errDataTooLarge ↔
        mtu < buf.length) ∧
    ((tiny_fd_send_packet mtu env queue buf).1 = TinyResult.errDataTooLarge →
        (tiny_fd_send_packet mtu env queue buf).2 = queue) ∧
    ((tiny_fd_send_packet mtu env queue buf).1 = TinyResult.errTimeout ↔
        buf.length ≤ mtu ∧ env.closing = false ∧ env.slot_free_in_time = false) ∧
    ((tiny_fd_send_packet mtu env queue buf).1 = TinyResult.errTimeout →
        (tiny_fd_send_packet mtu env queue buf).2 = queue) ∧
    ((tiny_fd_send_packet mtu env queue buf).1 = TinyResult.errFailed ↔
        buf.length ≤ mtu ∧ env.closing = true) ∧
    ((tiny_fd_send_packet mtu env queue buf).1 = TinyResult.success ↔
        (tiny_fd_send_packet mtu env queue buf).2 = queue ++ [buf]) := by
  obtain ⟨closing, slot⟩ := env
  by_cases hlt : mtu < buf.length <;> cases closing <;> cases slot <;>
    simp [tiny_fd_send_packet, hlt] <;> omega

/-- Witness for C5 at a concrete environment and payload. -/
theorem claim_C5_send_packet_errors_witness :
    ((tiny_fd_send_packet 4 { closing := false, slot_free_in_time := true } [] [1, 2]).1
        = TinyResult.errDataTooLarge ↔ (4 : Nat) < [1, 2].length) ∧
    ((tiny_fd_send_packet 4 { closing := false, slot_free_in_time := true } [] [1, 2]).1
        = TinyResult.errDataTooLarge →
      (tiny_fd_send_packet 4 { closing := false, slot_free_in_time := true } [] [1, 2]).2
        = []) ∧
    ((tiny_fd_send_packet 4 { closing := false, slot_free_in_time := true } [] [1, 2]).1
        = TinyResult.errTimeout ↔
      [1, 2].length ≤ 4 ∧
        ({ closing := false, slot_free_in_time := true } : SendEnv).closing = false ∧
        ({ closing := false, slot_free_in_time := true } : SendEnv).slot_free_in_time
          = false) ∧
    ((tiny_fd_send_packet 4 { closing := false, slot_free_in_time := true } [] [1, 2]).1
        = TinyResult.errTimeout →
      (tiny_fd_send_packet 4 { closing := false, slot_free_in_time := true } [] [1, 2]).2
        = []) ∧
    ((tiny_fd_send_packet 4 { closing := false, slot_free_in_time := true } [] [1, 2]).1
        = TinyResult.errFailed ↔
      [1, 2].length ≤ 4 ∧
        ({ closing := false, slot_free_in_time := true } : SendEnv).closing = true) ∧
    ((tiny_fd_send_packet 4 { closing := false, slot_free_in_time := true } [] [1, 2]).1
        = TinyResult.success ↔
      (tiny_fd_send_packet 4 { closing := false, slot_free_in_time := true } [] [1, 2]).2
        = [] ++ [[1, 2]]) :=
  claim_C5_send_packet_errors 4 { closing := false, slot_free_in_time := true } [] [1, 2]

/-- C6: `tiny_fd_disconnect` returns `TINY_SUCCESS` as soon as the DISC
command is placed into the tx queue, `TINY_ERR_FAILED` when the queue is
full, and its result never depends on the connection state — in particular
not on whether the peer's UA answer has arrived (non-blocking). -/
theorem claim_C6_disconnect_nonblocking (conn conn2 : FdConnState) (q : UFrameQueue) :
    (q.frames.length < q.capacity →
        tiny_fd_disconnect conn q =
          (TinyResult.success, { q with frames := q.frames ++ [UFrame.disc] })) ∧
    (q.capacity ≤ q.frames.length →
        tiny_fd_disconnect conn q = (TinyResult.errFailed, q)) ∧
    tiny_fd_disconnect conn q = tiny_fd_disconnect conn2 q := by
  refine ⟨fun h => ?_, fun h => ?_, rfl⟩
  · simp [tiny_fd_disconnect, h]
  · simp [tiny_fd_disconnect, Nat.not_lt.mpr h]

/-- Witness for C6 at a concrete queue with room. -/
theorem claim_C6_disconnect_nonblocking_witness :
    tiny_fd_disconnect { connected := true, ua_received := false }
        { frames := [], capacity := 2 } =
      (TinyResult.success, { frames := [UFrame.disc], capacity := 2 }) :=
  (claim_C6_disconnect_nonblocking { connected := true, ua_received := false }
    { connected := false, ua_received := true } { frames := [], capacity := 2 }).1
    (by decide)

/-- C7: the buffer sizing helpers are pure functions of their arguments —
equal arguments give equal results, with no dependence on any handle or
state — and `tiny_fd_buffer_size_by_mtu` agrees with
`tiny_fd_buffer_size_by_mtu_ex` at `HDLC_CRC_16` for every mtu and window. -/
theorem claim_C7_buffer_size_pure (mtu mtu2 window window2 : Nat)
    (crc crc2 : HdlcCrc) (h1 : mtu = mtu2) (h2 : window = window2) (h3 : crc = crc2) :
    tiny_fd_buffer_size_by_mtu_ex mtu window crc
        = tiny_fd_buffer_size_by_mtu_ex mtu2 window2 crc2 ∧
    tiny_fd_buffer_size_by_mtu mtu window = tiny_fd_buffer_size_by_mtu mtu2 window2 ∧
    tiny_fd_buffer_size_by_mtu mtu window
        = tiny_fd_buffer_size_by_mtu_ex mtu window HdlcCrc.crc16 := by
  subst h1; subst h2; subst h3
  exact ⟨rfl, rfl, rfl⟩

/-- Witness for C7 at concrete arguments. -/
theorem claim_C7_buffer_size_pure_witness :
    tiny_fd_buffer_size_by_mtu_ex 64 4 HdlcCrc.crc32
        = tiny_fd_buffer_size_by_mtu_ex 64 4 HdlcCrc.crc32 ∧
    tiny_fd_buffer_size_by_mtu 64 4 = tiny_fd_buffer_size_by_mtu 64 4 ∧
    tiny_fd_buffer_size_by_mtu 64 4 = tiny_fd_buffer_size_by_mtu_ex 64 4 HdlcCrc.crc16 :=
  claim_C7_buffer_size_pure 64 64 4 4 HdlcCrc.crc32 HdlcCrc.crc32 rfl rfl rfl

/-- C8: `tiny_fd_on_rx_data` returns `TINY_SUCCESS` for every state and
every input chunk; malformed bytes, CRC mismatches and out-of-order frames
only change the internal state and statistics, never the return value. -/
theorem claim_C8_on_rx_data_success (s : FdState) (data : List Nat) :
    (tiny_fd_on_rx_data s data).1 = TinyResult.success := rfl

/-- C9: when the caller passes `retry_timeout = 0` at init, the effective
retry timeout installed in the handle is `send_timeout / (retries + 1)`. -/
theorem claim_C9_default_retry_timeout (cfg : FdInitCfg) (h : FdHandle)
    (h0 : cfg.retry_timeout = 0) (hh : tiny_fd_init cfg = some h) :
    h.retry_timeout = cfg.send_timeout / (cfg.retries + 1) := by
  unfold tiny_fd_init at hh
  split at hh
  · exact absurd hh (by simp)
  · split at hh
    · exact absurd hh (by simp)
    · split at hh
      · exact absurd hh (by simp)
      · cases hh
        simp [fd_effective_retry_timeout, h0]

/-- Witness for C9 at a concrete configuration. -/
theorem claim_C9_default_retry_timeout_witness :
    ({ mtu := 10, retry_timeout := 1000, window_frames := 2 } : FdHandle).retry_timeout
      = 3000 / (2 + 1) :=
  claim_C9_default_retry_timeout
    { buffer_size := 1000, send_timeout := 3000, retry_timeout := 0, retries := 2,
      crc_type := HdlcCrc.crc16, window_frames := 2, mtu := 10 }
    { mtu := 10, retry_timeout := 1000, window_frames := 2 } rfl (by decide)

/-- Every window operation preserves the bounds `next_ns < 8`,
`confirm_ns < 8` and `window_used ≤ w`. -/
theorem window_step_preserves (w : Nat) (hw7 : w ≤ 7) (s : WindowState) (op : WindowOp)
    (h1 : s.next_ns < 8) (h2 : s.confirm_ns < 8) (h3 : window_used s ≤ w) :
    (window_step w s op).next_ns < 8 ∧ (window_step w s op).confirm_ns < 8 ∧
      window_used (window_step w s op) ≤ w := by
  cases op with
  | enqueue => exact ⟨h1, h2, h3⟩
  | retransmit => exact ⟨h1, h2, h3⟩
  | reset =>
      refine ⟨?_, ?_, ?_⟩ <;> simp [window_step, window_used]
  | transmit =>
      simp only [window_step, window_used] at *
      split <;> first | omega | (simp only []; omega)
  | ack nr =>
      simp only [window_step, window_used] at *
      split <;> first | omega | (simp only []; omega)

/-- All reachable window states satisfy the inductive bounds. -/
theorem window_reachable_inv (w : Nat) (hw7 : w ≤ 7) (s : WindowState)
    (hr : WindowReachable w s) :
    s.next_ns < 8 ∧ s.confirm_ns < 8 ∧ window_used s ≤ w := by
  induction hr with
  | init => exact ⟨by decide, by decide, by simp [window_used]⟩
  | step s op _ ih => exact window_step_preserves w hw7 s op ih.1 ih.2.1 ih.2.2

/-- C2: for every reachable state of the window engine,
`0 ≤ (next_ns − confirm_ns) mod 8 ≤ window_frames` with the window size in
[1,7], and every operation (enqueue, transmit, ack receipt, retransmit,
reset) preserves the bound. -/
theorem claim_C2_window_invariant (w : Nat) (s : WindowState) (op : WindowOp)
    (_hw1 : 1 ≤ w) (hw7 : w ≤ 7) (hr : WindowReachable w s) :
    (0 ≤ window_used s ∧ window_used s ≤ w) ∧
      window_used (window_step w s op) ≤ w := by
  have hinv := window_reachable_inv w hw7 s hr
  exact ⟨⟨Nat.zero_le _, hinv.2.2⟩,
    (window_step_preserves w hw7 s op hinv.1 hinv.2.1 hinv.2.2).2.2⟩

/-- Witness for C2 at window 1, one transmitted frame, and an ack
operation. -/
theorem claim_C2_window_invariant_witness :
    (0 ≤ window_used { next_ns := 1, confirm_ns := 0 } ∧
        window_used { next_ns := 1, confirm_ns := 0 } ≤ 1) ∧
      window_used (window_step 1 { next_ns := 1, confirm_ns := 0 } (WindowOp.ack 1)) ≤ 1 := by
  exact claim_C2_window_invariant 1 { next_ns := 1, confirm_ns := 0 } (WindowOp.ack 1)
    (by decide) (by decide)
    (WindowReachable.step { next_ns := 0, confirm_ns := 0 } WindowOp.transmit
      WindowReachable.init)

/-- C4: feeding the same valid I-frame (N(S) equal to `next_nr`) to the
receiver twice delivers the payload exactly once: the first copy is
delivered and `next_nr` advances modulo 8, and the duplicate leaves the
receiver state unchanged (suppressed without delivery). -/
theorem claim_C4_duplicate_suppression (r : FdReceiver) (f : RxFrame)
    (_hn : r.next_nr < 8) (hv : f.ns % 8 = r.next_nr) :
    fd_rx_i_frame (fd_rx_i_frame r f) f = fd_rx_i_frame r f ∧
    (fd_rx_i_frame r f).delivered = r.delivered ++ [f.payload] ∧
    (fd_rx_i_frame r f).next_nr = (r.next_nr + 1) % 8 := by
  simp only [fd_rx_i_frame, hv, if_true, if_pos rfl]
  rw [if_neg (by omega : ¬ r.next_nr = (r.next_nr + 1) % 8)]
  simp

/-- Witness for C4 at a fresh receiver and a concrete frame. -/
theorem claim_C4_duplicate_suppression_witness :
    fd_rx_i_frame (fd_rx_i_frame { next_nr := 0, delivered := [] } { ns := 0, payload := [42] })
        { ns := 0, payload := [42] }
      = fd_rx_i_frame { next_nr := 0, delivered := [] } { ns := 0, payload := [42] } ∧
    (fd_rx_i_frame { next_nr := 0, delivered := [] } { ns := 0, payload := [42] }).delivered
      = [] ++ [[42]] ∧
    (fd_rx_i_frame { next_nr := 0, delivered := [] } { ns := 0, payload := [42] }).next_nr
      = (0 + 1) % 8 :=
  claim_C4_duplicate_suppression { next_nr := 0, delivered := [] } { ns := 0, payload := [42] }
    (by decide) (by decide)

/-- Unfolding of the streaming decoder over one byte. -/
theorem hdlc_run_cons (d : HdlcDecoder) (b : Nat) (bs : List Nat) :
    hdlc_run d (b :: bs) = hdlc_run (hdlc_step d b) bs := rfl

/-- An octet escaped twice with XOR 0x20 is the original octet. -/
theorem xor_32_xor_32 (b : Nat) : b ^^^ 0x20 ^^^ 0x20 = b := by
  rw [Nat.xor_assoc, Nat.xor_self, Nat.xor_zero]

/-- Running the decoder in reading state over the stuffing of `data`
accumulates exactly `data` into the reassembly buffer: byte-stuffing is
inverted by the reading/escape states. -/
theorem hdlc_run_stuff (data : List Nat) :
    ∀ (rest buf : List Nat) (frames : List (List Nat)) (errs : Nat),
    hdlc_run ⟨HdlcRxState.reading, buf, frames, errs⟩ (hdlc_stuff data ++ rest)
      = hdlc_run ⟨HdlcRxState.reading, buf ++ data, frames, errs⟩ rest := by
  induction data with
  | nil => intro rest buf frames errs; simp [hdlc_stuff]
  | cons b bs ih =>
      intro rest buf frames errs
      have hstuff : hdlc_stuff (b :: bs) ++ rest
          = hdlc_escape_byte b ++ (hdlc_stuff bs ++ rest) := by
        simp [hdlc_stuff]
      rw [hstuff]
      by_cases hb : b = 0x7E ∨ b = 0x7D
      · have hesc : hdlc_escape_byte b = [0x7D, b ^^^ 0x20] := by
          simp [hdlc_escape_byte, hb]
        rw [hesc]
        rw [List.cons_append, List.cons_append, List.nil_append]
        rw [hdlc_run_cons, hdlc_run_cons]
        have hstep1 : hdlc_step ⟨HdlcRxState.reading, buf, frames, errs⟩ 0x7D
            = ⟨HdlcRxState.escape, buf, frames, errs⟩ := by
          simp [hdlc_step]
        have hstep2 : hdlc_step (⟨HdlcRxState.escape, buf, frames, errs⟩ : HdlcDecoder)
            (b ^^^ 0x20) = ⟨HdlcRxState.reading, buf ++ [b], frames, errs⟩ := by
          simp [hdlc_step, xor_32_xor_32]
        rw [hstep1, hstep2, ih]
        simp
      · push_neg at hb
        have hesc : hdlc_escape_byte b = [b] := by
          simp [hdlc_escape_byte, hb.1, hb.2]
        rw [hesc, List.cons_append, List.nil_append, hdlc_run_cons]
        have hstep : hdlc_step ⟨HdlcRxState.reading, buf, frames, errs⟩ b
            = ⟨HdlcRxState.reading, buf ++ [b], frames, errs⟩ := by
          simp [hdlc_step, hb.1, hb.2]
        rw [hstep, ih]
        simp

/-- Closing a frame whose reassembly buffer holds content of at least
header length followed by its own CRC emits exactly that content. -/
theorem hdlc_close_full (payload : List Nat) (frames : List (List Nat)) (errs : Nat)
    (hmin : fd_header_len ≤ payload.length) :
    hdlc_close_frame ⟨HdlcRxState.reading, payload ++ crc16_bytes payload, frames, errs⟩
      = ⟨HdlcRxState.reading, [], frames ++ [payload], errs⟩ := by
  have hhl : fd_header_len = 2 := rfl
  have hlen : (payload ++ crc16_bytes payload).length = payload.length + 2 := by
    simp [crc16_bytes]
  have hsub : (payload ++ crc16_bytes payload).length - 2 = payload.length := by omega
  have htake : (payload ++ crc16_bytes payload).take
      ((payload ++ crc16_bytes payload).length - 2) = payload := by
    rw [hsub]; exact List.take_left payload (crc16_bytes payload)
  have hdrop : (payload ++ crc16_bytes payload).drop
      ((payload ++ crc16_bytes payload).length - 2) = crc16_bytes payload := by
    rw [hsub]; exact List.drop_left payload (crc16_bytes payload)
  have hne : payload ++ crc16_bytes payload ≠ [] := by
    intro h
    have hl := congrArg List.length h
    rw [hlen] at hl
    simp at hl
  unfold hdlc_close_frame
  rw [if_neg hne,
    if_neg (by omega : ¬ (payload ++ crc16_bytes payload).length < fd_header_len + 2)]
  rw [htake, hdrop, if_pos rfl]

/-- The streaming decode of a streaming-encoded frame of at least header
length, from a fresh decode context, emits exactly the original content. -/
theorem hdlc_decode_encode (payload : List Nat)
    (hmin : fd_header_len ≤ payload.length) :
    hdlc_run hdlc_decoder_init (hdlc_encode payload)
      = ⟨HdlcRxState.reading, [], [payload], 0⟩ := by
  unfold hdlc_encode hdlc_decoder_init
  rw [hdlc_run_cons]
  have hstep : hdlc_step ⟨HdlcRxState.hunt, [], [], 0⟩ 0x7E
      = ⟨HdlcRxState.reading, [], [], 0⟩ := by
    simp [hdlc_step]
  rw [hstep, hdlc_run_stuff]
  have hnil : ([] : List Nat) ++ (payload ++ crc16_bytes payload)
      = payload ++ crc16_bytes payload := by simp
  rw [hnil]
  have hlast : hdlc_run ⟨HdlcRxState.reading, payload ++ crc16_bytes payload, [], 0⟩ [0x7E]
      = hdlc_close_frame ⟨HdlcRxState.reading, payload ++ crc16_bytes payload, [], 0⟩ := by
    rw [hdlc_run_cons]
    simp [hdlc_step, hdlc_run]
  rw [hlast, hdlc_close_full payload [] 0 hmin]
  simp

/-- C3 counterexample: the round-trip identity fails, as stated, at the
empty byte sequence (length 0 ≤ MTU 16): its encoded frame has a 2-byte
interior (the CRC alone), which the spec-faithful decoder silently drops
because the interior is shorter than header plus CRC, so no frame is
emitted. -/
theorem claim_C3_framer_roundtrip_counterexample :
    ([] : List Nat).length ≤ 16 ∧
      ¬ (hdlc_run hdlc_decoder_init (hdlc_encode [])).frames = [([] : List Nat)] := by
  exact ⟨by decide, by decide⟩

/-- C3 (amended): for every byte sequence of length at least the 2-byte
frame header (a frame interior always starts with the address and control
octets) and at most the MTU, the HDLC framer's streaming decode of the
framer's streaming encode of that sequence (flag delimiters, byte-stuffing
with 0x7D escape XOR 0x20, appended CRC) emits exactly the original
sequence: encode composed with decode is the identity on such
sequences. -/
theorem claim_C3_framer_roundtrip (mtu : Nat) (payload : List Nat)
    (_hlen : payload.length ≤ mtu) (hmin : fd_header_len ≤ payload.length) :
    (hdlc_run hdlc_decoder_init (hdlc_encode payload)).frames = [payload] := by
  rw [hdlc_decode_encode payload hmin]

/-- Witness for C3 at a payload containing the flag octet itself. -/
theorem claim_C3_framer_roundtrip_witness :
    (hdlc_run hdlc_decoder_init (hdlc_encode [0x7E, 0x7D, 0x00])).frames
      = [[0x7E, 0x7D, 0x00]] :=
  claim_C3_framer_roundtrip 3 [0x7E, 0x7D, 0x00] (by decide) (by decide)

/-- Taking one more element of a list appends exactly the element at that
position. -/
theorem take_succ_getD {α : Type} (l : List α) (dflt : α) :
    ∀ d : Nat, d < l.length → l.take (d + 1) = l.take d ++ [l.getD d dflt] := by
  induction l with
  | nil => intro d hd; exact absurd hd (by simp)
  | cons x xs ih =>
      intro d hd
      cases d with
      | zero => simp
      | succ e =>
          have he : e < xs.length := by
            have := hd
            simp at this
            omega
          simp [ih e he]

/-- Characterization of frame reception in the closed link system: the
frame for index `i` is delivered exactly when its N(S) residue matches the
receiver counter's residue. -/
theorem link_recv_eq (s : LinkState) (ps : List (List Nat)) (i : Nat) :
    link_recv s ps i =
      if i % 8 = s.next_nr % 8 then
        { s with next_nr := s.next_nr + 1, delivered := s.delivered ++ [ps.getD i []] }
      else s := by
  have hmod : i % 8 % 8 = i % 8 := Nat.mod_mod_of_dvd i dvd_rfl
  by_cases h : i % 8 = s.next_nr % 8
  · simp [link_recv, fd_rx_i_frame, link_frame, hmod, h]
  · simp [link_recv, fd_rx_i_frame, link_frame, hmod, h]

/-- Every transition of the closed link system preserves the inductive
invariant, for window sizes up to 7. -/
theorem link_step_inv (w : Nat) (ps : List (List Nat)) (hw7 : w ≤ 7)
    (s s' : LinkState) (hstep : LinkStep w ps s s') (hinv : LinkInv w ps s) :
    LinkInv w ps s' := by
  obtain ⟨i1, i2, i3, i4, i5⟩ := hinv
  cases hstep with
  | send_lost h1 h2 =>
      refine ⟨?_, ?_, ?_, ?_, ?_⟩ <;> (try simp only []) <;>
        first | omega | exact i5
  | send_recv h1 h2 =>
      rw [link_recv_eq]
      by_cases hsd : s.next_ns % 8 = s.next_nr % 8
      · rw [if_pos hsd]
        have hns : s.next_ns = s.next_nr := by omega
        refine ⟨?_, ?_, ?_, ?_, ?_⟩ <;> (try simp only [])
        · omega
        · omega
        · omega
        · omega
        · rw [i5, ← hns]
          exact (take_succ_getD ps [] s.next_ns (by omega)).symm
      · rw [if_neg hsd]
        refine ⟨?_, ?_, ?_, ?_, ?_⟩ <;> (try simp only []) <;>
          first | omega | exact i5
  | retransmit_lost i h1 h2 => exact ⟨i1, i2, i3, i4, i5⟩
  | retransmit_recv i h1 h2 =>
      rw [link_recv_eq]
      by_cases hsd : i % 8 = s.next_nr % 8
      · rw [if_pos hsd]
        have hns : i = s.next_nr := by omega
        refine ⟨?_, ?_, ?_, ?_, ?_⟩ <;> (try simp only [])
        · omega
        · omega
        · omega
        · omega
        · rw [i5, ← hns]
          exact (take_succ_getD ps [] i (by omega)).symm
      · rw [if_neg hsd]
        exact ⟨i1, i2, i3, i4, i5⟩
  | ack_recv a h1 h2 =>
      refine ⟨?_, ?_, ?_, ?_, ?_⟩ <;> (try simp only []) <;>
        first | omega | exact i5

/-- Every reachable state of the closed link system satisfies the
inductive invariant. -/
theorem link_reachable_inv (w : Nat) (ps : List (List Nat)) (hw7 : w ≤ 7)
    (s : LinkState) (hr : LinkReachable w ps s) : LinkInv w ps s := by
  induction hr with
  | init => exact ⟨by decide, by decide, by simp, by simp, by simp⟩
  | step s s' _ hstep ih => exact link_step_inv w ps hw7 s s' hstep ih

/-- C1: in every reachable state of the closed two-peer system, the
payloads delivered to the local `on_frame_cb` are exactly the first
`next_nr` payloads the peer enqueued, byte-identical and in enqueue order
(FIFO per direction, no delivery skipped or reordered); when the receiver
counter reaches the number of enqueued payloads, every payload has been
delivered exactly once. -/
theorem claim_C1_fifo_delivery (w : Nat) (ps : List (List Nat)) (s : LinkState)
    (_hw1 : 1 ≤ w) (hw7 : w ≤ 7) (hr : LinkReachable w ps s) :
    s.delivered = ps.take s.next_nr ∧ (s.next_nr = ps.length → s.delivered = ps) := by
  have hinv := link_reachable_inv w ps hw7 s hr
  refine ⟨hinv.2.2.2.2, fun hend => ?_⟩
  rw [hinv.2.2.2.2, hend, List.take_length]

/-- Witness for C1: one payload sent and received over a window-1 link. -/
theorem claim_C1_fifo_delivery_witness :
    ([[42]] : List (List Nat)) = List.take 1 [[42]] ∧
      ((1 : Nat) = ([[42]] : List (List Nat)).length →
        ([[42]] : List (List Nat)) = [[42]]) := by
  exact claim_C1_fifo_delivery 1 [[42]]
    { next_ns := 1, confirm_ns := 0, next_nr := 1, delivered := [[42]] }
    (by decide) (by decide)
    (LinkReachable.step { next_ns := 0, confirm_ns := 0, next_nr := 0, delivered := [] }
      { next_ns := 1, confirm_ns := 0, next_nr := 1, delivered := [[42]] }
      LinkReachable.init
      (LinkStep.send_recv { next_ns := 0, confirm_ns := 0, next_nr := 0, delivered := [] }
        (by decide) (by decide)))

/-- The buffer-size formula split into per-MTU-byte share and fixed
overhead. -/
theorem buffer_size_ex_eq (m w : Nat) (c : HdlcCrc) :
    tiny_fd_buffer_size_by_mtu_ex m w c = (w + 2) * m + fd_overhead_total w c := by
  unfold tiny_fd_buffer_size_by_mtu_ex fd_overhead_total
  ring

/-- The computed MTU as a single division by `window + 2`. -/
theorem computed_mtu_eq (bs w : Nat) (c : HdlcCrc) :
    fd_computed_mtu bs w c = (bs - fd_overhead_total w c) / (w + 2) := by
  unfold fd_computed_mtu fd_overhead_total
  congr 1
  omega

/-- C10: when `tiny_fd_init` is called with `mtu = 0`, initialization does
not fail for that reason: with a window in [1,7] and a buffer large enough
that the automatically computed MTU is positive, init succeeds and a
subsequent `tiny_fd_get_mtu` on the handle returns that computed positive
value. -/
theorem claim_C10_auto_mtu (cfg : FdInitCfg) (hmtu : cfg.mtu = 0)
    (hw1 : 1 ≤ cfg.window_frames) (hw7 : cfg.window_frames ≤ 7)
    (hpos : 0 < fd_computed_mtu cfg.buffer_size cfg.window_frames cfg.crc_type) :
    ∃ h, tiny_fd_init cfg = some h ∧
      tiny_fd_get_mtu h = fd_computed_mtu cfg.buffer_size cfg.window_frames cfg.crc_type ∧
      0 < tiny_fd_get_mtu h := by
  have heff : fd_effective_mtu cfg
      = fd_computed_mtu cfg.buffer_size cfg.window_frames cfg.crc_type := by
    simp [fd_effective_mtu, hmtu]
  have hdiv : 0 < (cfg.buffer_size - fd_overhead_total cfg.window_frames cfg.crc_type)
      / (cfg.window_frames + 2) := by
    rw [← computed_mtu_eq]; exact hpos
  have hroom : cfg.window_frames + 2
      ≤ cfg.buffer_size - fd_overhead_total cfg.window_frames cfg.crc_type :=
    (Nat.one_le_div_iff (by omega)).mp hdiv
  have hmul : fd_computed_mtu cfg.buffer_size cfg.window_frames cfg.crc_type
        * (cfg.window_frames + 2)
      ≤ cfg.buffer_size - fd_overhead_total cfg.window_frames cfg.crc_type := by
    rw [computed_mtu_eq]
    exact Nat.div_mul_le_self _ _
  have hfit : tiny_fd_buffer_size_by_mtu_ex
      (fd_computed_mtu cfg.buffer_size cfg.window_frames cfg.crc_type)
      cfg.window_frames cfg.crc_type ≤ cfg.buffer_size := by
    rw [buffer_size_ex_eq]
    have hco : fd_overhead_total cfg.window_frames cfg.crc_type ≤ cfg.buffer_size := by
      omega
    calc (cfg.window_frames + 2)
          * fd_computed_mtu cfg.buffer_size cfg.window_frames cfg.crc_type
          + fd_overhead_total cfg.window_frames cfg.crc_type
        ≤ (cfg.buffer_size - fd_overhead_total cfg.window_frames cfg.crc_type)
          + fd_overhead_total cfg.window_frames cfg.crc_type := by
          rw [Nat.mul_comm]
          exact Nat.add_le_add_right hmul _
      _ = cfg.buffer_size := Nat.sub_add_cancel hco
  refine ⟨{ mtu := fd_computed_mtu cfg.buffer_size cfg.window_frames cfg.crc_type
            retry_timeout := fd_effective_retry_timeout cfg
            window_frames := cfg.window_frames }, ?_, rfl, hpos⟩
  unfold tiny_fd_init
  rw [heff]
  rw [if_neg (by omega : ¬ (cfg.window_frames < 1 ∨ 7 < cfg.window_frames))]
  rw [if_neg (by omega : ¬ fd_computed_mtu cfg.buffer_size cfg.window_frames cfg.crc_type = 0)]
  rw [if_neg (Nat.not_lt.mpr hfit)]

/-- Witness for C10 at a concrete configuration with `mtu = 0`. -/
theorem claim_C10_auto_mtu_witness :
    ∃ h, tiny_fd_init { buffer_size := 1000, send_timeout := 3000, retry_timeout := 0
                        retries := 2, crc_type := HdlcCrc.crc16, window_frames := 2
                        mtu := 0 } = some h ∧
      tiny_fd_get_mtu h = fd_computed_mtu 1000 2 HdlcCrc.crc16 ∧
      0 < tiny_fd_get_mtu h :=
  claim_C10_auto_mtu
    { buffer_size := 1000, send_timeout := 3000, retry_timeout := 0, retries := 2
      crc_type := HdlcCrc.crc16, window_frames := 2, mtu := 0 }
    rfl (by decide) (by decide) (by decide)

end TinyFd
